import Mathlib

/-!
Formal model of the sector-analysis scoring engine.

Numeric values are modelled as rationals.  A value of type `Option ℚ` stands
for a Python float slot that may be absent: `none` plays the role of `None`
(or, for the `normalize` primitives, of the `None`-or-`NaN` case which the
source treats identically).  Each definition is a direct translation of the
named Python function; the source file and line range are given in the doc
comment of every definition.
-/

namespace SectorAnalysis

/-- The clipping primitive, as `np.clip(x, lo, hi)`: the lower bound is
applied first, then the upper bound. -/
def clip (x lo hi : ℚ) : ℚ := min (max x lo) hi

theorem clip_le_right {x lo hi : ℚ} : clip x lo hi ≤ hi := min_le_right _ _

theorem left_le_clip {x lo hi : ℚ} (h : lo ≤ hi) : lo ≤ clip x lo hi :=
  le_min (le_max_right _ _) h

theorem clip_of_le_left {x lo hi : ℚ} (hlo : x ≤ lo) (h : lo ≤ hi) :
    clip x lo hi = lo := by
  unfold clip
  rw [max_eq_right hlo, min_eq_left h]

theorem clip_of_right_le {x lo hi : ℚ} (hhi : hi ≤ x) (h : lo ≤ hi) :
    clip x lo hi = hi := by
  unfold clip
  rw [max_eq_left (h.trans hhi), min_eq_right hhi]

theorem clip_of_mem {x lo hi : ℚ} (h1 : lo ≤ x) (h2 : x ≤ hi) :
    clip x lo hi = x := by
  unfold clip
  rw [max_eq_left h1, min_eq_left h2]

namespace PrismScoring

/-- `normalize` from `sector_analysis_app/src/prism_scoring.py`, lines 19 to 33.
`none` models the `value is None or np.isnan(value)` case. -/
def normalize (value : Option ℚ) (min_val max_val : ℚ) (invert : Bool) : ℚ :=
  match value with
  | none => 50
  | some v =>
    let v := clip v min_val max_val
    let normalized :=
      if max_val > min_val then 100 * (v - min_val) / (max_val - min_val) else 50
    if invert then 100 - normalized else normalized

/-- The weighted combination of the four sub-scores from `compute_prism_score`
in `sector_analysis_app/src/prism_scoring.py`, lines 386 to 391. -/
def prism_score_combine (fundamentals_score structural_score topdown_score behavior_score : ℚ) : ℚ :=
  35/100 * fundamentals_score +
  30/100 * structural_score +
  25/100 * topdown_score +
  10/100 * behavior_score

end PrismScoring

/-- A firm-level fundamentals record; every field may be absent.  `none`
models a missing key or a `None` value in the Python dict. -/
structure FirmFundamentals where
  roe : Option ℚ := none
  profit_margin : Option ℚ := none
  revenue_growth : Option ℚ := none
  gross_margin : Option ℚ := none
  debt_to_equity : Option ℚ := none
  fcf : Option ℚ := none
  market_cap : Option ℚ := none
deriving DecidableEq

namespace PrismScoring

/-- The fraction-to-percentage rescaling applied to roe, profit_margin and
gross_margin inside `compute_firm_score` (prism_scoring.py lines 48 to 62):
`value * 100 if value < 1 else value`. -/
def scale_fraction (v : ℚ) : ℚ := if v < 1 then v * 100 else v

/-- The rescaling applied to revenue_growth (prism_scoring.py line 58):
`value * 100 if abs(value) < 5 else value`. -/
def scale_growth (v : ℚ) : ℚ := if |v| < 5 then v * 100 else v

/-- FCF over market cap, times 100 (prism_scoring.py lines 66 to 68).  Python
truthiness makes the result `None` when either operand is absent or zero. -/
def fcf_to_mcap (f : FirmFundamentals) : Option ℚ :=
  match f.fcf, f.market_cap with
  | some fc, some mc => if fc ≠ 0 ∧ mc ≠ 0 then some (fc / mc * 100) else none
  | _, _ => none

/-- Normalize a metric when it is present, else the 55 default
(prism_scoring.py lines 71 to 76). -/
def metric_score (v : Option ℚ) (mn mx : ℚ) (inv : Bool) : ℚ :=
  match v with
  | some x => normalize (some x) mn mx inv
  | none => 55

/-- `compute_firm_score` from prism_scoring.py lines 36 to 88.  An absent
record, or one without a market cap (which also covers the empty dict),
yields the slight-positive default 55. -/
def compute_firm_score (fundamentals : Option FirmFundamentals) : ℚ :=
  match fundamentals with
  | none => 55
  | some f =>
    match f.market_cap with
    | none => 55
    | some _ =>
      let roe := f.roe.map scale_fraction
      let profit_margin := f.profit_margin.map scale_fraction
      let revenue_growth := f.revenue_growth.map scale_growth
      let gross_margin := f.gross_margin.map scale_fraction
      let roe_score := metric_score roe (-10) 40 false
      let margin_score := metric_score profit_margin (-10) 50 false
      let growth_score := metric_score revenue_growth (-20) 50 false
      let fcf_score := metric_score (fcf_to_mcap f) (-5) 15 false
      let debt_score := metric_score f.debt_to_equity 0 300 true
      let gross_score := metric_score gross_margin 0 80 false
      25/100 * fcf_score + 25/100 * roe_score + 20/100 * margin_score +
        15/100 * gross_score + 10/100 * growth_score + 5/100 * debt_score

end PrismScoring

/-- Python `round(q, ndigits)` on exact values: rounding to the nearest
integer after shifting, ties going to the even integer. -/
def round_half_even (q : ℚ) : ℤ :=
  let f := ⌊q⌋
  let r := q - f
  if r < 1/2 then f
  else if 1/2 < r then f + 1
  else if f % 2 = 0 then f else f + 1

/-- Python `round(q, ndigits)` for a nonnegative number of digits. -/
def round_to (ndigits : ℕ) (q : ℚ) : ℚ :=
  (round_half_even (q * 10 ^ ndigits) : ℚ) / 10 ^ ndigits

namespace PrismScoring

/-- The supplier-power force of `compute_structural_score`
(prism_scoring.py lines 150 to 152): the 0 to 100 normalization of HHI over
the band 0 to 5000, divided by 20, then clipped into 1 to 5. -/
def supplier_power_force (hhi : ℚ) : ℚ :=
  clip (normalize (some hhi) 0 5000 false / 20) 1 5

/-- The rivalry force of `compute_structural_score` (prism_scoring.py lines
159 to 161): as the supplier-power force but with the normalization
inverted. -/
def rivalry_force (hhi : ℚ) : ℚ :=
  clip (normalize (some hhi) 0 5000 true / 20) 1 5

/-- The lifecycle lookup of `compute_structural_score` (prism_scoring.py
lines 167 to 174); an unknown stage defaults to the Mature value. -/
def lifecycle_map (stage : String) : ℚ :=
  if stage = "Intro" then 2
  else if stage = "Growth" then 4
  else if stage = "Shakeout" then 3
  else if stage = "Mature" then 7/2
  else if stage = "Decline" then 5/2
  else 7/2

/-- The result record of `compute_structural_score`. -/
structure StructuralResult where
  porter_score : ℚ
  lifecycle_score : ℚ
  structural_score : ℚ
  barriers : ℚ
  substitutes : ℚ
  rivalry : ℚ
deriving DecidableEq

/-- `compute_structural_score` from prism_scoring.py lines 116 to 187.  The
`firms_df` and `country_code` parameters of the source are unused by its body
and are not modelled. -/
def compute_structural_score (sector : String) (r_and_d_intensity hhi : ℚ)
    (regulation_flag : ℤ) (lifecycle_stage : String) : StructuralResult :=
  let barriers0 : ℚ :=
    if r_and_d_intensity > 10 then 9/2
    else if r_and_d_intensity > 5 then 7/2
    else 5/2
  let barriers1 := if regulation_flag = 1 then barriers0 + 1/2 else barriers0
  let barriers := min barriers1 5
  let substitutes : ℚ :=
    if sector = "Information Technology" ∨ sector = "Communication Services" then 4
    else if sector = "Utilities" ∨ sector = "Real Estate" then 2
    else 3
  let supplier_power := supplier_power_force hhi
  let buyer_power : ℚ :=
    if sector = "Consumer Discretionary" ∨ sector = "Consumer Staples" then 7/2 else 3
  let rivalry := rivalry_force hhi
  let porter_avg := (barriers + substitutes + supplier_power + buyer_power + rivalry) / 5
  let porter_score := normalize (some porter_avg) 1 5 false
  let lifecycle_val := lifecycle_map lifecycle_stage
  let lifecycle_score := normalize (some lifecycle_val) 1 5 false
  let structural_score := 70/100 * porter_score + 30/100 * lifecycle_score
  { porter_score := round_to 2 porter_score
    lifecycle_score := round_to 2 lifecycle_score
    structural_score := round_to 2 structural_score
    barriers := round_to 2 barriers
    substitutes := round_to 2 substitutes
    rivalry := round_to 2 rivalry }

/-- One row of the firms frame handed to `compute_sector_fundamentals`: the
fundamentals columns plus the two columns the function itself may write.  A
fresh frame from the caller has both extra columns absent. -/
structure SectorRow where
  fund : FirmFundamentals
  firm_score : Option ℚ := none
  weight : Option ℚ := none
deriving DecidableEq

/-- `compute_sector_fundamentals` from prism_scoring.py lines 91 to 113,
with the pandas frame made explicit state: the result is the returned score
together with the frame as the caller sees it afterwards.  The column
assignments `firms_df["firm_score"] = ...` and `firms_df["weight"] = ...`
write through to the caller's frame, so they appear in the second component.
The sum over market caps skips absent values (pandas skipna), the mean
divides by the count of present scores, and a product with an absent weight
drops out of the weighted sum, exactly as NaN entries do in pandas. -/
def compute_sector_fundamentals (firms_df : List SectorRow) : ℚ × List SectorRow :=
  if firms_df.isEmpty then (50, firms_df)
  else
    let scored := firms_df.map fun r =>
      { r with firm_score := some (compute_firm_score (some r.fund)) }
    let total_mcap : ℚ := (scored.filterMap fun r => r.fund.market_cap).sum
    if total_mcap = 0 then
      ((scored.filterMap fun r => r.firm_score).sum /
        ((scored.filterMap fun r => r.firm_score).length : ℚ), scored)
    else
      let weighted := scored.map fun r =>
        { r with weight := r.fund.market_cap.map fun m => m / total_mcap }
      ((weighted.filterMap fun r =>
          match r.firm_score, r.weight with
          | some s, some w => some (s * w)
          | _, _ => none).sum, weighted)

end PrismScoring

/-- One portfolio allocation: ticker, monetary amount, country and sector. -/
structure AllocationRow where
  ticker : String
  amount : ℚ
  country : String
  sector : String
deriving DecidableEq

/-- One row of the PRISM score table keyed by country and sector. -/
structure ScoreRow where
  country : String
  sector : String
  prism_score : ℚ
deriving DecidableEq

namespace PrismAllocation

/-- One result record of `compute_alignment_score`. -/
structure AlignmentRow where
  ticker : String
  country : String
  sector : String
  amount : ℚ
  prism_score : Option ℚ
  alignment_score : ℚ
  tier : String
deriving DecidableEq

/-- The loop body of `compute_alignment_score`
(sector_analysis_app/src/prism_allocation.py lines 127 to 173): look up the
allocation's country-sector pair in the score table (taking the first match,
as `match.iloc[0]` does), emit the rounded score and tier when found, or the
neutral 50 with tier Not Scored when not. -/
def align_one (prism_scores : List ScoreRow) (row : AllocationRow) : AlignmentRow :=
  match prism_scores.filter fun s => s.country = row.country ∧ s.sector = row.sector with
  | [] =>
    { ticker := row.ticker, country := row.country, sector := row.sector
      amount := row.amount, prism_score := none, alignment_score := 50
      tier := "Not Scored" }
  | m :: _ =>
    let prism_score := m.prism_score
    let alignment_score := prism_score
    let tier := if prism_score ≥ 70 then "Overweight"
      else if prism_score ≥ 55 then "Neutral"
      else "Underweight"
    { ticker := row.ticker, country := row.country, sector := row.sector
      amount := row.amount, prism_score := some (round_to 2 prism_score)
      alignment_score := round_to 2 alignment_score, tier := tier }

/-- `compute_alignment_score` from
sector_analysis_app/src/prism_allocation.py lines 116 to 175: one result
record per allocation, in order. -/
def compute_alignment_score (allocated_sector_country : List AllocationRow)
    (prism_scores : List ScoreRow) : List AlignmentRow :=
  allocated_sector_country.map (align_one prism_scores)

end PrismAllocation

namespace PrismDataLoader

/-- The result record of `compute_portfolio_weighted_score`. -/
structure PortfolioResult where
  weighted_score : ℚ
  tier : String
  interpretation : String
  total_allocation : ℚ
deriving DecidableEq

/-- The merge step of `compute_portfolio_weighted_score`
(prism_data_loader.py lines 146 to 156): a left join of the portfolio with
the score table on country and sector, missing scores filled with 50.  A
portfolio row is paired with the score of every matching table row, or with
the neutral 50 when the table is absent or has no match. -/
def merge_scores (portfolio_df : List AllocationRow) (prism_df : Option (List ScoreRow)) :
    List (AllocationRow × ℚ) :=
  match prism_df with
  | none => portfolio_df.map fun a => (a, 50)
  | some scores =>
    portfolio_df.flatMap fun a =>
      match scores.filter fun s => s.country = a.country ∧ s.sector = a.sector with
      | [] => [(a, 50)]
      | ms => ms.map fun s => (a, s.prism_score)

/-- `compute_portfolio_weighted_score` from prism_data_loader.py lines 130
to 177: amount-weighted average of the merged scores, with the degenerate
zero-total early return, tier thresholds 65 and 45, and the final rounding
of the weighted score to one decimal place. -/
def compute_portfolio_weighted_score (portfolio_df : List AllocationRow)
    (prism_df : Option (List ScoreRow)) : PortfolioResult :=
  let total_value : ℚ := (portfolio_df.map fun a => a.amount).sum
  if total_value = 0 then
    { weighted_score := 50, tier := "Neutral"
      interpretation := "No allocations", total_allocation := 0 }
  else
    let merged := merge_scores portfolio_df prism_df
    let weighted_score : ℚ := (merged.map fun p => p.2 * p.1.amount).sum / total_value
    let tier : String := if weighted_score ≥ 65 then "Overweight"
      else if weighted_score ≥ 45 then "Neutral"
      else "Underweight"
    let interpretation : String := if weighted_score ≥ 65 then
        "Portfolio is positioned for growth; overweight high-opportunity sectors and countries"
      else if weighted_score ≥ 45 then
        "Portfolio is balanced across opportunities and risk; neither aggressive nor conservative"
      else
        "Portfolio is positioned conservatively; underweight high-opportunity sectors"
    { weighted_score := round_to 1 weighted_score, tier := tier
      interpretation := interpretation, total_allocation := total_value }

end PrismDataLoader

namespace Scoring

/-- `normalize` from `sector_analysis_app/src/scoring.py`, lines 10 to 24:
scale first to the unit interval, clip the ratio to 0 to 1, invert inside
the unit interval if requested, then scale to 0 to 100.  `none` models the
None-or-NaN guard of the source. -/
def normalize (value : Option ℚ) (vmin vmax : ℚ) (invert : Bool) : ℚ :=
  match value with
  | none => 50
  | some v =>
    if vmax = vmin then 50
    else
      let val := (v - vmin) / (vmax - vmin)
      let val := clip val 0 1
      let val := if invert then 1 - val else val
      val * 100

end Scoring

end SectorAnalysis

namespace SectorAnalysis

open PrismScoring PrismAllocation PrismDataLoader

theorem normalize_none (mn mx : ℚ) (inv : Bool) :
    normalize none mn mx inv = 50 := rfl

theorem normalize_some (x mn mx : ℚ) (inv : Bool) :
    normalize (some x) mn mx inv =
      (if inv then
        100 - (if mx > mn then 100 * (clip x mn mx - mn) / (mx - mn) else 50)
       else (if mx > mn then 100 * (clip x mn mx - mn) / (mx - mn) else 50)) := rfl

theorem normalize_degenerate {x : ℚ} {mn mx : ℚ} (inv : Bool) (h : ¬ mn < mx) :
    normalize (some x) mn mx inv = 50 := by
  rw [normalize_some]
  have h' : ¬ mx > mn := by simpa using h
  cases inv
  · simp [h']
  · simp [h']
    norm_num

theorem normalize_formula_of_lt {x : ℚ} {mn mx : ℚ} {inv : Bool} (h : mn < mx) :
    normalize (some x) mn mx inv =
      (if inv then 100 - 100 * (clip x mn mx - mn) / (mx - mn)
       else 100 * (clip x mn mx - mn) / (mx - mn)) := by
  rw [normalize_some]
  have h' : mx > mn := by simpa using h
  cases inv <;> simp [h']

theorem normalize_nonneg_le (v : Option ℚ) (mn mx : ℚ) (inv : Bool) :
    0 ≤ normalize v mn mx inv ∧ normalize v mn mx inv ≤ 100 := by
  rcases v with _ | x
  · rw [normalize_none]; norm_num
  · rcases lt_or_ge mn mx with h | h
    · have hd : 0 < mx - mn := by linarith
      have h1 : mn ≤ clip x mn mx := left_le_clip h.le
      have h2 : clip x mn mx ≤ mx := clip_le_right
      have hbase0 : 0 ≤ 100 * (clip x mn mx - mn) / (mx - mn) :=
        div_nonneg (by linarith) hd.le
      have hbase100 : 100 * (clip x mn mx - mn) / (mx - mn) ≤ 100 := by
        rw [div_le_iff₀ hd]; nlinarith
      rw [normalize_formula_of_lt h]
      rcases inv with _ | _ <;> simp only [if_true, if_false, Bool.false_eq_true] <;>
        constructor <;> linarith
    · rw [normalize_degenerate inv (not_lt.mpr h)]; norm_num

/-- Claim C1: for every input, `normalize` returns a value in the interval
from 0 to 100; a missing (None or NaN) value yields exactly 50; equal band
endpoints yield exactly 50; and for a proper band with `min_val < max_val`
the result is the linear rescaling of the value clipped into the band, with
the result subtracted from 100 when `invert` is set. -/
theorem normalize_range_and_policy (v : Option ℚ) (mn mx : ℚ) (inv : Bool) :
    (0 ≤ normalize v mn mx inv ∧ normalize v mn mx inv ≤ 100) ∧
    (v = none → normalize v mn mx inv = 50) ∧
    (mn = mx → normalize v mn mx inv = 50) ∧
    (∀ x, v = some x → mn < mx →
      normalize v mn mx inv =
        (if inv then 100 - 100 * (clip x mn mx - mn) / (mx - mn)
         else 100 * (clip x mn mx - mn) / (mx - mn))) := by
  refine ⟨normalize_nonneg_le v mn mx inv, ?_, ?_, ?_⟩
  · rintro rfl; rfl
  · rintro rfl
    rcases v with _ | x
    · rfl
    · exact normalize_degenerate inv (lt_irrefl mn)
  · rintro x rfl h
    exact normalize_formula_of_lt h

/-- Witness for claim C1 at a concrete input: normalizing 15 against the band
from 0 to 10 saturates at the upper boundary and returns 100. -/
theorem normalize_range_and_policy_witness :
    normalize (some 15) 0 10 false = 100 := by
  have h := (normalize_range_and_policy (some 15) 0 10 false).2.2.2 15 rfl (by norm_num)
  rw [h, clip_of_right_le (by norm_num) (by norm_num)]
  norm_num

/-- Claim C2: the composite PRISM score is the weighted sum of the four
sub-scores with weights 0.35, 0.30, 0.25 and 0.10; the weights sum to one,
so if all four sub-scores equal X the composite equals X exactly. -/
theorem prism_score_combine_weights (X : ℚ) :
    ((35:ℚ)/100 + 30/100 + 25/100 + 10/100 = 1) ∧
    prism_score_combine X X X X = X := by
  constructor
  · norm_num
  · unfold prism_score_combine; ring

/-- Claim C5: the firm score of an absent record is exactly 55, and the firm
score of any record without a market cap is exactly 55, whatever its other
fields hold. -/
theorem compute_firm_score_default :
    compute_firm_score none = 55 ∧
    ∀ f : FirmFundamentals, f.market_cap = none → compute_firm_score (some f) = 55 := by
  refine ⟨rfl, fun f h => ?_⟩
  simp [compute_firm_score, h]

/-- Witness for claim C5: a record carrying several fundamentals but no
market cap still scores exactly 55. -/
theorem compute_firm_score_default_witness :
    compute_firm_score (some { roe := some 30, profit_margin := some 20, fcf := some 5 }) = 55 :=
  compute_firm_score_default.2 _ rfl

/-- Counterexample for claim C3: the code multiplies a roe of -2 by 100 even
though its absolute value is at least 1, so the firm score the code computes
differs from the one the absolute-value rule of the claim would give. -/
theorem scale_detection_counterexample :
    ¬ |(-2 : ℚ)| < 1 ∧
    scale_fraction (-2) = -200 ∧
    compute_firm_score (some { roe := some (-2), market_cap := some 1 }) = 165/4 ∧
    25/100 * normalize (some (-2)) (-10) 40 false + 75/100 * 55 = 181/4 ∧
    (165/4 : ℚ) ≠ 181/4 := by
  refine ⟨by norm_num, by norm_num [scale_fraction], ?_, ?_, by norm_num⟩
  · norm_num [compute_firm_score, metric_score, fcf_to_mcap, scale_fraction,
      PrismScoring.normalize, clip]
  · norm_num [PrismScoring.normalize, clip]

/-- Claim C3 (amended): the rescaling condition for roe, profit_margin and
gross_margin is the signed comparison `value < 1`, not a comparison of the
absolute value, so negative ratios of those three fields are always
multiplied by 100; only revenue_growth uses the absolute-value test
`abs(value) < 5`.  The first conjunct states this for every fundamentals
record with a market cap: it pins down exactly which scaled value feeds
each normalization.  The remaining conjuncts evaluate each of the four
scaled fields on its own, and reprove the spec scenario: roe 0.25 is
normalized as 25 percent while profit_margin 20 is normalized as 20
directly. -/
theorem scale_detection_amended :
    (∀ roe pm rg gm de fc : Option ℚ, ∀ mc : ℚ,
      compute_firm_score (some ⟨roe, pm, rg, gm, de, fc, some mc⟩) =
        25/100 * metric_score (fcf_to_mcap ⟨roe, pm, rg, gm, de, fc, some mc⟩) (-5) 15 false +
        25/100 * metric_score (roe.map fun v => if v < 1 then v * 100 else v) (-10) 40 false +
        20/100 * metric_score (pm.map fun v => if v < 1 then v * 100 else v) (-10) 50 false +
        15/100 * metric_score (gm.map fun v => if v < 1 then v * 100 else v) 0 80 false +
        10/100 * metric_score (rg.map fun v => if |v| < 5 then v * 100 else v) (-20) 50 false +
        5/100 * metric_score de 0 300 true) ∧
    (∀ r : ℚ, compute_firm_score (some { roe := some r, market_cap := some 1 }) =
        25/100 * normalize (some (if r < 1 then r * 100 else r)) (-10) 40 false + 165/4) ∧
    (∀ p : ℚ, compute_firm_score (some { profit_margin := some p, market_cap := some 1 }) =
        20/100 * normalize (some (if p < 1 then p * 100 else p)) (-10) 50 false + 44) ∧
    (∀ m : ℚ, compute_firm_score (some { gross_margin := some m, market_cap := some 1 }) =
        15/100 * normalize (some (if m < 1 then m * 100 else m)) 0 80 false + 187/4) ∧
    (∀ g : ℚ, compute_firm_score (some { revenue_growth := some g, market_cap := some 1 }) =
        10/100 * normalize (some (if |g| < 5 then g * 100 else g)) (-20) 50 false + 99/2) ∧
    compute_firm_score
        (some { roe := some (1/4), profit_margin := some 20, market_cap := some 1 }) = 231/4 ∧
    25/100 * normalize (some 25) (-10) 40 false +
      20/100 * normalize (some 20) (-10) 50 false + 55/100 * 55 = 231/4 := by
  refine ⟨fun roe pm rg gm de fc mc => ?_, fun r => ?_, fun p => ?_, fun m => ?_,
    fun g => ?_, ?_, ?_⟩
  · rfl
  · simp only [compute_firm_score, metric_score, fcf_to_mcap, scale_fraction, Option.map]
    norm_num
    ring
  · simp only [compute_firm_score, metric_score, fcf_to_mcap, scale_fraction, Option.map]
    norm_num
    ring
  · simp only [compute_firm_score, metric_score, fcf_to_mcap, scale_fraction, Option.map]
    norm_num
    ring
  · simp only [compute_firm_score, metric_score, fcf_to_mcap, scale_growth, Option.map]
    norm_num
    ring
  · norm_num [compute_firm_score, metric_score, fcf_to_mcap, scale_fraction,
      PrismScoring.normalize, clip]
  · norm_num [PrismScoring.normalize, clip]

theorem clip_div_pos {c : ℚ} (hc : 0 < c) (x lo hi : ℚ) :
    clip x lo hi / c = clip (x / c) (lo / c) (hi / c) := by
  unfold clip
  rw [← min_div_div_right hc.le (max x lo) hi, ← max_div_div_right hc.le x lo]

theorem clip_clip_widen (t : ℚ) : clip (clip t 0 5) 1 5 = clip t 1 5 := by
  unfold clip
  rcases le_total t 0 with h | h
  · rw [max_eq_right h, max_eq_right (h.trans (by norm_num : (0:ℚ) ≤ 1))]
    norm_num
  · rcases le_total t 5 with h' | h'
    · rw [max_eq_left h, min_eq_left h']
    · rw [max_eq_left h, min_eq_right h',
        max_eq_left (le_trans (by norm_num : (1:ℚ) ≤ 5) h'), min_eq_right h']
      norm_num

theorem five_sub_clip (u : ℚ) : 5 - clip u 0 5 = clip (5 - u) 0 5 := by
  unfold clip
  rcases le_total u 0 with h | h
  · rw [max_eq_right h, min_eq_left (by norm_num : (0:ℚ) ≤ 5),
      max_eq_left (by linarith : (0:ℚ) ≤ 5 - u), min_eq_right (by linarith : (5:ℚ) ≤ 5 - u)]
    norm_num
  · rcases le_total u 5 with h' | h'
    · rw [max_eq_left h, min_eq_left h',
        max_eq_left (by linarith : (0:ℚ) ≤ 5 - u), min_eq_left (by linarith : 5 - u ≤ 5)]
    · rw [max_eq_left h, min_eq_right h',
        max_eq_right (by linarith : 5 - u ≤ 0), min_eq_left (by norm_num : (0:ℚ) ≤ 5)]
      norm_num

/-- Counterexample for claim C4: at HHI 2500 the code produces a
supplier-power force of 2.5 and a rivalry force of 2.5 (also visible in the
rounded rivalry field of the structural result), not the 3.0 a linear map of
the band 0 to 5000 onto the 1 to 5 scale would give. -/
theorem hhi_forces_counterexample :
    supplier_power_force 2500 = 5/2 ∧ rivalry_force 2500 = 5/2 ∧
    (compute_structural_score "Energy" 5 2500 0 "Mature").rivalry = 5/2 ∧
    ((5:ℚ)/2 ≠ 3) := by
  refine ⟨?_, ?_, ?_, by norm_num⟩ <;>
    norm_num [compute_structural_score, supplier_power_force, rivalry_force,
      PrismScoring.normalize, clip, round_to, round_half_even]

/-- Claim C4 (amended): the supplier-power force is HHI divided by 1000
(the 0 to 100 normalization over the band 0 to 5000 divided by 20, a map
onto 0 to 5) clipped into 1 to 5, and the rivalry force is its reflection 5
minus HHI over 1000, clipped the same way.  Hence HHI 2500 gives 2.5 for
both forces, while HHI 0 still gives supplier power 1.0 and rivalry 5.0. -/
theorem hhi_forces_amended :
    (∀ h : ℚ, supplier_power_force h = clip (h / 1000) 1 5 ∧
        rivalry_force h = clip (5 - h / 1000) 1 5) ∧
    supplier_power_force 2500 = 5/2 ∧ rivalry_force 2500 = 5/2 ∧
    supplier_power_force 0 = 1 ∧ rivalry_force 0 = 5 := by
  have key : ∀ h : ℚ, clip h 0 5000 / 1000 = clip (h / 1000) 0 5 := by
    intro h
    rw [clip_div_pos (by norm_num : (0:ℚ) < 1000)]
    norm_num
  refine ⟨fun h => ⟨?_, ?_⟩, ?_, ?_, ?_, ?_⟩
  · unfold supplier_power_force
    rw [normalize_formula_of_lt (by norm_num : (0:ℚ) < 5000), if_neg (by simp)]
    have harith : 100 * (clip h 0 5000 - 0) / (5000 - 0) / 20 = clip h 0 5000 / 1000 := by
      ring
    rw [harith, key, clip_clip_widen]
  · unfold rivalry_force
    rw [normalize_formula_of_lt (by norm_num : (0:ℚ) < 5000), if_pos rfl]
    have harith : (100 - 100 * (clip h 0 5000 - 0) / (5000 - 0)) / 20 =
        5 - clip h 0 5000 / 1000 := by
      ring
    rw [harith, key, five_sub_clip, clip_clip_widen]
  all_goals
    norm_num [supplier_power_force, rivalry_force, PrismScoring.normalize, clip]

/-- Counterexample for claim C6: running the sector aggregator on a fresh
one-firm frame hands back a frame whose row now carries a firm_score entry,
so the caller's collection is not left unchanged. -/
theorem sector_fundamentals_mutation_counterexample :
    ((compute_sector_fundamentals [{ fund := { market_cap := some 1 } }]).2.map
        fun r => r.firm_score) = [some 55] ∧
    (([{ fund := { market_cap := some 1 } }] : List SectorRow).map
        fun r => r.firm_score) = [none] ∧
    (compute_sector_fundamentals [{ fund := { market_cap := some 1 } }]).2 ≠
      [{ fund := { market_cap := some 1 } }] := by
  have hscore : compute_firm_score (some ({ market_cap := some 1 } : FirmFundamentals)) = 55 := by
    norm_num [compute_firm_score, metric_score, fcf_to_mcap]
  refine ⟨?_, rfl, ?_⟩
  · simp [compute_sector_fundamentals, hscore]
  · intro hEq
    have hmap := congrArg (fun l => l.map fun r : PrismScoring.SectorRow => r.firm_score) hEq
    simp [compute_sector_fundamentals, hscore] at hmap

/-- Claim C6 (amended): the returned score is a pure function of the input
values and the fundamentals columns are never altered, but the aggregator
does mutate the caller's collection whenever it is non-empty: every row
receives a firm_score column holding that firm's score, and when the total
market cap is nonzero every row also receives a weight column holding its
market-cap share. -/
theorem sector_fundamentals_mutation (firms : List SectorRow) (hne : firms ≠ []) :
    ((compute_sector_fundamentals firms).2.map fun r => r.fund) =
      (firms.map fun r => r.fund) ∧
    ((compute_sector_fundamentals firms).2.map fun r => r.firm_score) =
      (firms.map fun r => some (compute_firm_score (some r.fund))) ∧
    ((firms.filterMap fun r => r.fund.market_cap).sum ≠ 0 →
      ((compute_sector_fundamentals firms).2.map fun r => r.weight) =
        (firms.map fun r => r.fund.market_cap.map fun m =>
          m / (firms.filterMap fun r => r.fund.market_cap).sum)) := by
  have hemp : firms.isEmpty = false := by simp [List.isEmpty_iff, hne]
  have hmc : ((firms.map fun r =>
      { r with firm_score := some (compute_firm_score (some r.fund)) }).filterMap
        fun r => r.fund.market_cap) = firms.filterMap fun r => r.fund.market_cap := by
    rw [List.filterMap_map]
    rfl
  unfold compute_sector_fundamentals
  rw [hemp]
  simp only [Bool.false_eq_true, if_false, hmc]
  by_cases h0 : (firms.filterMap fun r => r.fund.market_cap).sum = 0
  · rw [if_pos h0]
    refine ⟨?_, ?_, fun hne0 => absurd h0 hne0⟩
    · simp [List.map_map]
    · simp [List.map_map]
  · rw [if_neg h0]
    refine ⟨?_, ?_, fun _ => ?_⟩
    · simp [List.map_map]
    · simp [List.map_map]
    · simp [List.map_map]

/-- Witness for claim C6 (amended) at a concrete frame: after aggregating a
fresh one-firm frame with market cap 1, the returned frame carries a weight
column holding the full share. -/
theorem sector_fundamentals_mutation_witness :
    ((compute_sector_fundamentals [{ fund := { market_cap := some 1 } }]).2.map
        fun r => r.weight) = [some 1] := by
  have h := (sector_fundamentals_mutation [{ fund := { market_cap := some 1 } }]
    (by simp)).2.2 (by simp)
  simpa using h

/-- Claim C9: the sector fundamentals score is invariant under permutation
of the firms collection, on the market-cap weighted path as well as on the
equal-weight fallback that runs when the total market cap is zero. -/
theorem sector_fundamentals_perm_invariant (l1 l2 : List SectorRow) (hp : l1.Perm l2) :
    (compute_sector_fundamentals l1).1 = (compute_sector_fundamentals l2).1 := by
  by_cases h1 : l1 = []
  · subst h1
    have h2 : l2 = [] := (List.perm_nil.mp hp.symm)
    subst h2
    rfl
  · have h2 : l2 ≠ [] := by
      intro h
      subst h
      exact h1 (List.perm_nil.mp hp)
    have e1 : l1.isEmpty = false := by simp [List.isEmpty_iff, h1]
    have e2 : l2.isEmpty = false := by simp [List.isEmpty_iff, h2]
    have hscored : (l1.map fun r =>
        { r with firm_score := some (compute_firm_score (some r.fund)) }).Perm
        (l2.map fun r =>
        { r with firm_score := some (compute_firm_score (some r.fund)) }) := hp.map _
    have htot : ((l1.map fun r =>
        { r with firm_score := some (compute_firm_score (some r.fund)) }).filterMap
          fun r => r.fund.market_cap).sum =
        ((l2.map fun r =>
        { r with firm_score := some (compute_firm_score (some r.fund)) }).filterMap
          fun r => r.fund.market_cap).sum := (hscored.filterMap _).sum_eq
    unfold compute_sector_fundamentals
    rw [e1, e2]
    simp only [Bool.false_eq_true, if_false, htot]
    by_cases h0 : ((l2.map fun r =>
        { r with firm_score := some (compute_firm_score (some r.fund)) }).filterMap
          fun r => r.fund.market_cap).sum = 0
    · rw [if_pos h0, if_pos h0]
      have hsum := (hscored.filterMap fun r => r.firm_score).sum_eq
      have hlen := (hscored.filterMap fun r => r.firm_score).length_eq
      simp only [hsum, hlen]
    · rw [if_neg h0, if_neg h0]
      exact ((hscored.map _).filterMap _).sum_eq

/-- Counterexample for claim C7: a single allocation of amount 100 whose
country-sector score is 62.37 produces a returned weighted score of 62.4,
because the code rounds the weighted average to one decimal place. -/
theorem portfolio_roundoff_counterexample :
    (compute_portfolio_weighted_score
        [{ ticker := "AAA", amount := 100, country := "US", sector := "Information Technology" }]
        (some [{ country := "US", sector := "Information Technology",
                 prism_score := 6237/100 }])).weighted_score = 624/10 ∧
    ((624:ℚ)/10 ≠ 6237/100) := by
  constructor
  · norm_num [PrismDataLoader.compute_portfolio_weighted_score,
      PrismDataLoader.merge_scores, round_to, round_half_even]
  · norm_num

/-- Claim C7 (amended): for a portfolio holding a single allocation of
positive amount A whose country-sector pair resolves to exactly one score
row with score S, the returned weighted score equals S rounded to one
decimal place (hence equals S exactly whenever ten times S is an integer),
independent of A, and the reported total allocation is A. -/
theorem portfolio_single_allocation (tk co se : String) (A : ℚ) (hA : 0 < A)
    (scores : List ScoreRow) (s : ScoreRow)
    (hfind : (scores.filter fun r => r.country = co ∧ r.sector = se) = [s]) :
    (compute_portfolio_weighted_score
        [{ ticker := tk, amount := A, country := co, sector := se }]
        (some scores)).weighted_score = round_to 1 s.prism_score ∧
    (compute_portfolio_weighted_score
        [{ ticker := tk, amount := A, country := co, sector := se }]
        (some scores)).total_allocation = A := by
  have hmain : compute_portfolio_weighted_score
      [{ ticker := tk, amount := A, country := co, sector := se }] (some scores) =
      { weighted_score := round_to 1 s.prism_score
        tier := if s.prism_score ≥ 65 then "Overweight"
          else if s.prism_score ≥ 45 then "Neutral" else "Underweight"
        interpretation := if s.prism_score ≥ 65 then
            "Portfolio is positioned for growth; overweight high-opportunity sectors and countries"
          else if s.prism_score ≥ 45 then
            "Portfolio is balanced across opportunities and risk; neither aggressive nor conservative"
          else
            "Portfolio is positioned conservatively; underweight high-opportunity sectors"
        total_allocation := A } := by
    unfold PrismDataLoader.compute_portfolio_weighted_score PrismDataLoader.merge_scores
    simp only [List.map_cons, List.map_nil, List.sum_cons, List.sum_nil, add_zero,
      List.flatMap_cons, List.flatMap_nil, hfind, List.append_nil]
    rw [if_neg hA.ne']
    have hws : s.prism_score * A / A = s.prism_score := by
      rw [mul_div_assoc, div_self hA.ne', mul_one]
    simp only [List.map_cons, List.map_nil, List.sum_cons, List.sum_nil, add_zero, hws]
  rw [hmain]
  exact ⟨rfl, rfl⟩

/-- Witness for claim C7 (amended): one allocation of amount 200 against a
table scoring its pair 68 returns a weighted score of exactly 68. -/
theorem portfolio_single_allocation_witness :
    (compute_portfolio_weighted_score
        [{ ticker := "AAA", amount := 200, country := "US", sector := "Health Care" }]
        (some [{ country := "US", sector := "Health Care", prism_score := 68 }])).weighted_score
      = 68 := by
  have h := portfolio_single_allocation "AAA" "US" "Health Care" 200 (by norm_num)
      [{ country := "US", sector := "Health Care", prism_score := 68 }]
      { country := "US", sector := "Health Care", prism_score := 68 } (by simp)
  rw [h.1]
  norm_num [round_to, round_half_even]

/-- Counterexample for claim C8: an allocation whose table score is 62.375
gets alignment_score 62.38, because the code rounds the looked-up score to
two decimals before storing it. -/
theorem alignment_roundoff_counterexample :
    ((compute_alignment_score
        [{ ticker := "AAA", amount := 1, country := "US", sector := "Information Technology" }]
        [{ country := "US", sector := "Information Technology",
           prism_score := 62375/1000 }]).map fun r => r.alignment_score) = [6238/100] ∧
    ((6238:ℚ)/100 ≠ 62375/1000) := by
  constructor
  · norm_num [PrismAllocation.compute_alignment_score, PrismAllocation.align_one,
      round_to, round_half_even]
  · norm_num

/-- Claim C8 (amended): the alignment computation produces exactly one
result record per allocation and never fails; when the country-sector
lookup finds a score row its alignment_score is that PRISM score rounded to
two decimals with tier Overweight exactly when the unrounded score is at
least 70, Neutral exactly when it is at least 55 and below 70, and
Underweight exactly when it is below 55; when the lookup misses, the
alignment_score is 50 with tier Not Scored. -/
theorem align_one_miss (prism : List ScoreRow) (row : AllocationRow)
    (h : (prism.filter fun s => s.country = row.country ∧ s.sector = row.sector) = []) :
    align_one prism row =
      { ticker := row.ticker, country := row.country, sector := row.sector
        amount := row.amount, prism_score := none, alignment_score := 50
        tier := "Not Scored" } := by
  unfold PrismAllocation.align_one
  rw [h]

theorem align_one_hit (prism : List ScoreRow) (row : AllocationRow) (s : ScoreRow)
    (rest : List ScoreRow)
    (h : (prism.filter fun s2 => s2.country = row.country ∧ s2.sector = row.sector) = s :: rest) :
    align_one prism row =
      { ticker := row.ticker, country := row.country, sector := row.sector
        amount := row.amount, prism_score := some (round_to 2 s.prism_score)
        alignment_score := round_to 2 s.prism_score
        tier := if s.prism_score ≥ 70 then "Overweight"
          else if s.prism_score ≥ 55 then "Neutral"
          else "Underweight" } := by
  unfold PrismAllocation.align_one
  rw [h]

theorem alignment_spec (allocs : List AllocationRow) (prism : List ScoreRow) :
    (compute_alignment_score allocs prism).length = allocs.length ∧
    (∀ i (h1 : i < (compute_alignment_score allocs prism).length) (h2 : i < allocs.length),
      (compute_alignment_score allocs prism).get ⟨i, h1⟩ =
        align_one prism (allocs.get ⟨i, h2⟩)) ∧
    (∀ a : AllocationRow,
      ((prism.filter fun s => s.country = a.country ∧ s.sector = a.sector) = [] →
        (align_one prism a).alignment_score = 50 ∧
        (align_one prism a).tier = "Not Scored") ∧
      (∀ s rest,
        (prism.filter fun s2 => s2.country = a.country ∧ s2.sector = a.sector) = s :: rest →
        (align_one prism a).alignment_score = round_to 2 s.prism_score ∧
        ((align_one prism a).tier = "Overweight" ↔ 70 ≤ s.prism_score) ∧
        ((align_one prism a).tier = "Neutral" ↔ 55 ≤ s.prism_score ∧ s.prism_score < 70) ∧
        ((align_one prism a).tier = "Underweight" ↔ s.prism_score < 55))) := by
  refine ⟨by simp [PrismAllocation.compute_alignment_score], fun i h1 h2 => ?_, fun a => ⟨?_, ?_⟩⟩
  · simp [PrismAllocation.compute_alignment_score]
  · intro hmiss
    rw [align_one_miss prism a hmiss]
    exact ⟨rfl, rfl⟩
  · intro s rest hhit
    rw [align_one_hit prism a s rest hhit]
    refine ⟨rfl, ?_, ?_, ?_⟩
    all_goals
      dsimp only
      split_ifs <;> simp_all <;> linarith

/-- Witness for claim C8 (amended) at concrete inputs: a single allocation
against a one-row table scoring its pair 62.375 yields one record whose
alignment_score is the two-decimal rounding 62.38 and whose tier is
Neutral. -/
theorem alignment_spec_witness :
    (compute_alignment_score
        [{ ticker := "BBB", amount := 1, country := "DE", sector := "Industrials" }]
        [{ country := "DE", sector := "Industrials", prism_score := 62375/1000 }]).length = 1 ∧
    (align_one [{ country := "DE", sector := "Industrials", prism_score := 62375/1000 }]
        { ticker := "BBB", amount := 1, country := "DE", sector := "Industrials" }).tier
      = "Neutral" := by
  have h := alignment_spec
    [{ ticker := "BBB", amount := 1, country := "DE", sector := "Industrials" }]
    [{ country := "DE", sector := "Industrials", prism_score := 62375/1000 }]
  refine ⟨by simpa using h.1, ?_⟩
  have h2 := (h.2.2 { ticker := "BBB", amount := 1, country := "DE", sector := "Industrials" }).2
    { country := "DE", sector := "Industrials", prism_score := 62375/1000 } [] (by simp)
  exact h2.2.2.1.mpr (by norm_num)

/-- Witness for claim C9: swapping the two firms of a concrete frame leaves
the aggregated score unchanged. -/
theorem sector_fundamentals_perm_invariant_witness :
    (compute_sector_fundamentals
      [{ fund := { market_cap := some 1 } }, { fund := { market_cap := some 3 } }]).1 =
    (compute_sector_fundamentals
      [{ fund := { market_cap := some 3 } }, { fund := { market_cap := some 1 } }]).1 :=
  sector_fundamentals_perm_invariant _ _ (List.Perm.swap _ _ _)

theorem clip_sub_const (a lo hi d : ℚ) :
    clip a lo hi - d = clip (a - d) (lo - d) (hi - d) := by
  unfold clip
  rw [← min_sub_sub_right, ← max_sub_sub_right]

/-- Claim C10: the PRISM engine's normalize (clip the raw value into the
band, then scale) and the ETF scorer's normalize (scale to the unit
interval, then clip the ratio) agree on every value and invert flag as soon
as the band satisfies vmin < vmax. -/
theorem normalize_implementations_agree (v : Option ℚ) (vmin vmax : ℚ) (inv : Bool)
    (h : vmin < vmax) :
    PrismScoring.normalize v vmin vmax inv = Scoring.normalize v vmin vmax inv := by
  rcases v with _ | x
  · rfl
  · have hd : 0 < vmax - vmin := by linarith
    have key : (clip x vmin vmax - vmin) / (vmax - vmin) =
        clip ((x - vmin) / (vmax - vmin)) 0 1 := by
      rw [clip_sub_const, sub_self, clip_div_pos hd, zero_div, div_self hd.ne']
    have hsome : Scoring.normalize (some x) vmin vmax inv =
        (if vmax = vmin then 50
         else (if inv then 1 - clip ((x - vmin) / (vmax - vmin)) 0 1
               else clip ((x - vmin) / (vmax - vmin)) 0 1) * 100) := rfl
    rw [normalize_formula_of_lt h, hsome, if_neg h.ne']
    cases inv
    · rw [if_neg (by simp), if_neg (by simp), ← key]
      ring
    · rw [if_pos rfl, if_pos rfl, ← key]
      ring

/-- Witness for claim C10 at a concrete input: both implementations send 3
in the band 0 to 10, inverted, to the same score. -/
theorem normalize_implementations_agree_witness :
    PrismScoring.normalize (some 3) 0 10 true = Scoring.normalize (some 3) 0 10 true :=
  normalize_implementations_agree (some 3) 0 10 true (by norm_num)

end SectorAnalysis
